import Mathlib

/-!
# Verification development for `go.balki.me/anyhttp`

Shallow embedding of the repository's two packages:

* `anyhttp` (address parsing, unix-socket and systemd-activation listener
  acquisition, server wiring), and
* `anyhttp/idle` (the idle-activity coordinator and the process-wide
  global idler).

Go machine integers (`int`, `int64`, `time.Duration` in nanoseconds) are
modelled as `Int`; file modes as `Nat`; Go `nil`-able pointers and maps as
`Option`/association lists.  Operating-system effects (`os.Remove`,
`net.Listen`, `os.Chmod`, `net.FileListener`) are modelled as oracles that
say whether the corresponding call succeeds, and the environment as an
explicit record that the embedded functions thread through.
-/

/-- Decidable equality on `Except` (Go's `(value, error)` return pairs). -/
instance {ε α : Type _} [DecidableEq ε] [DecidableEq α] : DecidableEq (Except ε α) := by
  intro x y
  cases x <;> cases y
  case error.error a b => exact decidable_of_iff (a = b) (by simp)
  case error.ok a b => exact isFalse (by simp)
  case ok.error a b => exact isFalse (by simp)
  case ok.ok a b => exact decidable_of_iff (a = b) (by simp)

namespace Anyhttp

namespace Idle

/-! ## The idler watcher (idle/idle.go, `CreateIdler`)

The watcher goroutine repeatedly reads the shared state (`i.active`,
`i.lastTick`) and the clock.  One loop iteration is a pure function of that
observation: `Obs` is what the iteration reads, `watcherStep` is the decision
the code takes on it (sleep the full timeout, sleep `dur`, or break out and
close the channel). -/

/-- One observation of the shared idler state by the watcher loop:
`active` is `i.active.Load()`, `lastTick` the time stored by the last
`Tick`, `now` the value of `time.Now()` at this iteration.  Times and
durations are nanosecond counts, as in Go's `time.Duration`. -/
structure Obs where
  active : Int
  lastTick : Int
  now : Int
deriving Repr, DecidableEq

/-- What one iteration of the watcher loop does. -/
inductive WatchAction
  /-- `time.Sleep(timeout); continue` (taken while `active ≠ 0`). -/
  | sleepFull
  /-- `time.Sleep(dur); continue` with `dur = lastTick + timeout - now`. -/
  | sleepFor (d : Int)
  /-- `break` out of the loop, after which `close(i.c)` runs. -/
  | fire
deriving Repr, DecidableEq

/-- One iteration of the watcher loop of `CreateIdler` (idle/idle.go:96-110):
if `i.active.Load() != 0`, sleep the full timeout; otherwise compute
`dur := t.Add(timeout).Sub(now)` and sleep `dur` when `dur == dur.Abs()`
(that is, when `dur ≥ 0`; Go's `Duration.Abs` maps `minInt64` to `maxInt64`,
so the comparison holds exactly for non-negative durations), else break. -/
def watcherStep (timeout : Int) (o : Obs) : WatchAction :=
  if o.active ≠ 0 then
    .sleepFull
  else
    let dur : Int := o.lastTick + timeout - o.now
    if dur = (dur.natAbs : Int) then .sleepFor dur else .fire

/-- The watcher loop run against a trace of observations (one per iteration):
returns the list of actions taken and whether `close(i.c)` has happened by
the end of the trace.  The loop stops at the first `fire`; a trace that ends
before firing leaves the loop still running (`false`). -/
def watcherRun (timeout : Int) : List Obs → List WatchAction × Bool
  | [] => ([], false)
  | o :: rest =>
    match watcherStep timeout o with
    | .fire => ([.fire], true)
    | a => ((watcherRun timeout rest).1.cons a, (watcherRun timeout rest).2)

/-- The mutable state of one `idler` value: `lastTick` (the stored
timestamp), `active` (the job counter) and `fired` (whether channel `i.c`
has been closed). -/
structure IdlerSt where
  lastTick : Int
  active : Int
  fired : Bool
deriving Repr, DecidableEq

/-- The operations the `idle` package performs on an `idler`'s state.
These are the only writes in idle/idle.go: `Tick` stores the current time,
`Enter` adds 1 to the counter, `Exit` ticks then subtracts 1, the watcher
closes the channel after breaking out of its loop, and `Wait`/`Chan`
receives only read. -/
inductive IdlerOp
  | tick (t : Int)
  | enter
  | exit (t : Int)
  | chanClose
  | waitRead
deriving Repr, DecidableEq

/-- Effect of one operation on the idler state (idle/idle.go:82-127). -/
def idlerApply : IdlerSt → IdlerOp → IdlerSt
  | s, .tick t => { s with lastTick := t }
  | s, .enter => { s with active := s.active + 1 }
  | s, .exit t => { s with lastTick := t, active := s.active - 1 }
  | s, .chanClose => { s with fired := true }
  | s, .waitRead => s

/-- A sequence of operations applied in order. -/
def idlerRun (s : IdlerSt) (ops : List IdlerOp) : IdlerSt :=
  ops.foldl idlerApply s

/-! ## The process-wide global idler (idle/idle.go, `gIdler`, `Wait`, `Tick`)

`gIdler` is an `atomic.Pointer[idler]`; idler instances are identified by a
`Nat`.  The package writes `gIdler` in exactly one place: the
`CompareAndSwap(nil, i)` inside the global `Wait`. -/

/-- Outcome of one call to the global `Wait(timeout)` (idle/idle.go:18-26),
given the current `gIdler` slot and (an identifier for) the freshly created
idler.  The code first calls `CreateIdler` unconditionally — so an idler and
its watcher goroutine are created even by a losing call (`created`) — then
does `gIdler.CompareAndSwap(nil, i)` and returns the error
`"idler already waiting"` when the swap fails. -/
structure GlobalWaitResult where
  err : Option String
  slot : Option Nat
  created : Nat
deriving Repr, DecidableEq

/-- The global `Wait`'s interaction with the `gIdler` slot: its single
compare-and-swap linearization point. -/
def Wait (slot : Option Nat) (newIdler : Nat) : GlobalWaitResult :=
  match slot with
  | none => ⟨none, some newIdler, newIdler⟩
  | some j => ⟨some "idler already waiting", some j, newIdler⟩

/-- The operations of the `idle` package that touch `gIdler`: the global
`Wait`'s compare-and-swap and the global `Tick`'s load (which does not
write). No operation of the package ever stores `nil` back. -/
inductive GlobalOp
  | wait (newIdler : Nat)
  | tick
deriving Repr, DecidableEq

/-- Effect of one global operation on the `gIdler` slot. -/
def globalApply : Option Nat → GlobalOp → Option Nat
  | s, .wait i => (Wait s i).slot
  | s, .tick => s

/-- A sequence of global operations applied in order. -/
def globalRun (s : Option Nat) (ops : List GlobalOp) : Option Nat :=
  ops.foldl globalApply s

end Idle

/-! ## Errors of the `anyhttp` package

One constructor per `fmt.Errorf`/`errors.New` site of anyhttp.go, carrying
the values the format string interpolates. -/

/-- The error values anyhttp.go constructs. -/
inductive Err
  /-- `"unexpected PID, current:%v, LISTEN_PID: %v"`. -/
  | unexpectedPID (current : Int) (listenPID : Int)
  /-- `"invalid fd index, expected between 0 and %v, got: %v"`. -/
  | invalidFdIndex (numFds : Int) (got : Int)
  /-- `"fdName not found: %q, LISTEN_FDNAMES:%q"` — carries the requested
  name and the raw colon-separated name list. -/
  | fdNameNotFound (fdName : String) (listenFdNames : String)
  /-- `"neither FDIndex nor FDName set"`. -/
  | neitherSet
  /-- `net.FileListener` failed on this descriptor (OS error, opaque). -/
  | fileListenerError (fd : Int) (name : String)
  /-- `"invalid LISTEN_PID, err: %w"`. -/
  | invalidListenPID (inner : String)
  /-- `"invalid LISTEN_FDS, err: %w"`. -/
  | invalidListenFDS (inner : String)
  /-- `"unix socket address error. Multiple %v found: %v"`. -/
  | unixMultiple (key : String) (val : List String)
  /-- `"unix socket address error. Bad mode: %v, err: %w"`. -/
  | unixBadMode (val : List String)
  /-- `"unix socket address error. Bad remove_existing: %v, err: %w"`. -/
  | unixBadRemoveExisting (val : List String)
  /-- `"unix socket address error. Bad option; key: %v, val: %v"`. -/
  | unixBadOption (key : String) (val : List String)
  /-- `"unix socket address error. Missing path; addr: %v"`. -/
  | unixMissingPath
  /-- `"systemd socket fd address error. Multiple %v found: %v"`. -/
  | sysdMultiple (key : String) (val : List String)
  /-- `"systemd socket fd address error. Bad idx: %v, err: %w"`. -/
  | sysdBadIdx (val : List String)
  /-- `"systemd socket fd address error. Bad check_pid: %v, err: %w"`. -/
  | sysdBadCheckPid (val : List String)
  /-- `"systemd socket fd address error. Bad unset_env: %v, err: %w"`. -/
  | sysdBadUnsetEnv (val : List String)
  /-- `"systemd socket fd address error. Bad idle_timeout: %v, err: %w"`. -/
  | sysdBadIdleTimeout (val : List String)
  /-- `"systemd socket fd address error. Bad option; key: %v, val: %v"`. -/
  | sysdBadOption (key : String) (val : List String)
  /-- `"systemd socket fd address error. Exactly only one of name and idx
  has to be set. name: %v, idx: %v"`. -/
  | sysdExactlyOne (name : Option String) (idx : Option Int)
deriving Repr, DecidableEq

/-! ## Unix-socket listener acquisition (`UnixSocketConfig.GetListener`) -/

/-- Configuration for a Unix socket (anyhttp.go). `SocketMode` is the file
permission bits as a `Nat`. -/
structure UnixSocketConfig where
  SocketPath : String
  SocketMode : Nat
  RemoveExisting : Bool
deriving Repr, DecidableEq

/-- `DefaultUnixSocketConfig`: mode `0666`, `RemoveExisting` true,
`SocketPath` the string zero value. -/
def DefaultUnixSocketConfig : UnixSocketConfig :=
  ⟨"", 0o666, true⟩

/-- An operating-system error, as far as the code inspects it: the code only
ever asks whether an error is `fs.ErrNotExist`. -/
inductive OsErr
  | notExist
  | other (code : Nat)
deriving Repr, DecidableEq

/-- Oracle fixing the outcome of the three OS calls
`UnixSocketConfig.GetListener` makes, in order: `os.Remove(SocketPath)`,
`net.Listen("unix", SocketPath)` and `os.Chmod(SocketPath, SocketMode)`
(`none` = the call succeeds). -/
structure UnixOsOracle where
  removeErr : Option OsErr
  listenErr : Option OsErr
  chmodErr : Option OsErr
deriving Repr, DecidableEq

/-- The Unix-socket listener object returned on success. -/
structure UnixListener where
  path : String
deriving Repr, DecidableEq

/-- `UnixSocketConfig.GetListener` (anyhttp.go:493-511).  The second
component of the result records whether a bound Unix-domain socket is open
when the call returns: `net.Listen` opens one, and the function contains no
`Close` call on any path, so once binding succeeds the socket stays open —
in particular on the path where `os.Chmod` fails and the function does
`return nil, err`. -/
def UnixSocketConfig.GetListener (u : UnixSocketConfig) (os : UnixOsOracle) :
    Except OsErr UnixListener × Bool :=
  let removeFailure : Option OsErr :=
    if u.RemoveExisting then
      match os.removeErr with
      | some e => if e ≠ OsErr.notExist then some e else none
      | none => none
    else none
  match removeFailure with
  | some e => (.error e, false)
  | none =>
    match os.listenErr with
    | some e => (.error e, false)
    | none =>
      match os.chmodErr with
      | some e => (.error e, true)
      | none => (.ok ⟨u.SocketPath⟩, true)

/-! ## Systemd activation (`SysdConfig.GetListener`) -/

/-- The data `parse()` extracts from the `LISTEN_*` environment variables
(anyhttp.go: `sysdEnvData`). -/
structure SysdEnvData where
  pid : Int
  fdNames : List String
  fdNamesStr : String
  numFds : Int
deriving Repr, DecidableEq

/-- Configuration for a socket-activated descriptor (anyhttp.go:
`SysdConfig`). `IdleTimeout` is a `time.Duration` in nanoseconds. -/
structure SysdConfig where
  FDIndex : Option Int
  FDName : Option String
  CheckPID : Bool
  UnsetEnv : Bool
  IdleTimeout : Option Int
deriving Repr, DecidableEq

/-- `DefaultSysdConfig`: `CheckPID` and `UnsetEnv` true, the rest zero. -/
def DefaultSysdConfig : SysdConfig :=
  ⟨none, none, true, true, none⟩

/-- `StartFD`: the first socket-activation descriptor number. -/
def StartFD : Int := 3

/-- The listener object wrapping a pre-opened descriptor: descriptor
number, associated name, and whether `syscall.CloseOnExec` was applied. -/
structure Listener where
  fd : Int
  name : String
  closeOnExec : Bool
deriving Repr, DecidableEq

/-- `makeFdListener` (anyhttp.go:516-524): wrap descriptor `fd` with
`os.NewFile`/`net.FileListener` (the oracle `flOk` says whether
`net.FileListener` succeeds) and mark it close-on-exec. -/
def makeFdListener (flOk : Int → String → Bool) (fd : Int) (name : String) :
    Except Err Listener :=
  if flOk fd name then .ok ⟨fd, name, true⟩
  else .error (.fileListenerError fd name)

/-- First index of an exact match in the name list: the
`for idx, name := range envData.fdNames` scan of anyhttp.go:557-562. -/
def findFdIdx : List String → String → Option Nat
  | [], _ => none
  | n :: rest, target =>
    if n = target then some 0 else (findFdIdx rest target).map (· + 1)

/-- The three systemd activation environment variables of the process
environment (`none` = unset). -/
structure Env where
  listenPid : Option String
  listenFds : Option String
  listenFdNames : Option String
deriving Repr, DecidableEq

/-- `UnsetSystemdListenVars` (anyhttp.go:652-656): unset `LISTEN_PID`,
`LISTEN_FDS` and `LISTEN_FDNAMES`. -/
def UnsetSystemdListenVars (_e : Env) : Env :=
  ⟨none, none, none⟩

/-- `SysdConfig.GetListener` (anyhttp.go:527-567).  `curPid` is
`os.Getpid()`; `parseResult` the (process-wide cached) result of `parse()`;
`flOk` the `net.FileListener` oracle; `env` the process environment at the
call.  The result pairs the Go return value with the environment after the
call: the code registers `defer UnsetSystemdListenVars()` first thing when
`s.UnsetEnv`, so every `return` below passes through that deferred call,
which is why each exit inlines
`if s.UnsetEnv then UnsetSystemdListenVars env else env`. -/
def SysdConfig.GetListener (s : SysdConfig) (curPid : Int)
    (parseResult : Except Err SysdEnvData) (flOk : Int → String → Bool)
    (env : Env) : Except Err Listener × Env :=
  match parseResult with
  | .error e =>
    (.error e, if s.UnsetEnv then UnsetSystemdListenVars env else env)
  | .ok envData =>
    if s.CheckPID ∧ envData.pid ≠ curPid then
      (.error (.unexpectedPID curPid envData.pid),
       if s.UnsetEnv then UnsetSystemdListenVars env else env)
    else
      match s.FDIndex with
      | some idx =>
        if idx < 0 ∨ idx ≥ envData.numFds then
          (.error (.invalidFdIndex envData.numFds idx),
           if s.UnsetEnv then UnsetSystemdListenVars env else env)
        else
          if idx < (envData.fdNames.length : Int) then
            (makeFdListener flOk (StartFD + idx) (envData.fdNames.getD idx.toNat ""),
             if s.UnsetEnv then UnsetSystemdListenVars env else env)
          else
            (makeFdListener flOk (StartFD + idx) ("sysdfd_" ++ toString (StartFD + idx)),
             if s.UnsetEnv then UnsetSystemdListenVars env else env)
      | none =>
        match s.FDName with
        | some target =>
          match findFdIdx envData.fdNames target with
          | some i =>
            -- the matched element equals `target` by the scan's equality test
            (makeFdListener flOk (StartFD + (i : Int)) target,
             if s.UnsetEnv then UnsetSystemdListenVars env else env)
          | none =>
            (.error (.fdNameNotFound target envData.fdNamesStr),
             if s.UnsetEnv then UnsetSystemdListenVars env else env)
        | none =>
          (.error .neitherSet,
           if s.UnsetEnv then UnsetSystemdListenVars env else env)

/-! ## Address parsing (`parseAddress`, anyhttp.go:658-751)

`parseAddress` runs `url.Parse` on the address and then inspects `u.Path`
and `u.Query()`.  The embedding starts from that point: `path` is `u.Path`,
and `query` is the `url.Values` map as an association list (one entry per
key, each with its list of values; a key repeated in the address string
becomes one entry with several values).  Go iterates the map in unspecified
order, so theorems quantify over the entry list.

The four primitive value parsers — `strconv.Atoi`, `strconv.ParseBool`,
`time.ParseDuration` and `fmt.Sscanf` with `"%o"` — are standard-library
externals, taken as parameters (`none` = the Go call returns an error). -/

/-- The standard-library value parsers `parseAddress` calls. -/
structure Parsers where
  atoi : String → Option Int
  parseBool : String → Option Bool
  parseDuration : String → Option Int
  scanOctal : String → Option Nat

/-- `AddressType` (anyhttp.go). -/
inductive AddressType
  | UnixSocket
  | SystemdFD
  | TCP
  | Unknown
deriving Repr, DecidableEq

/-- The named return values of `parseAddress`. -/
structure ParseResult where
  addrType : AddressType
  usc : Option UnixSocketConfig
  sysc : Option SysdConfig
  err : Option Err
deriving Repr, DecidableEq

/-- The `for key, val := range u.Query()` loop of the `unix` branch
(anyhttp.go:670-693), processing the entries in list order over the
accumulated config. -/
def parseUnixQuery (P : Parsers) :
    UnixSocketConfig → List (String × List String) → UnixSocketConfig × Option Err
  | usc, [] => (usc, none)
  | usc, (key, val) :: rest =>
    if val.length ≠ 1 then (usc, some (.unixMultiple key val))
    else
      let v := val.headD ""
      if key = "path" then
        parseUnixQuery P { usc with SocketPath := v } rest
      else if key = "mode" then
        match P.scanOctal v with
        | some m => parseUnixQuery P { usc with SocketMode := m } rest
        | none => (usc, some (.unixBadMode val))
      else if key = "remove_existing" then
        match P.parseBool v with
        | some b => parseUnixQuery P { usc with RemoveExisting := b } rest
        | none => (usc, some (.unixBadRemoveExisting val))
      else (usc, some (.unixBadOption key val))

/-- The `for key, val := range u.Query()` loop of the `sysd` branch
(anyhttp.go:702-741). -/
def parseSysdQuery (P : Parsers) :
    SysdConfig → List (String × List String) → SysdConfig × Option Err
  | sysc, [] => (sysc, none)
  | sysc, (key, val) :: rest =>
    if val.length ≠ 1 then (sysc, some (.sysdMultiple key val))
    else
      let v := val.headD ""
      if key = "name" then
        parseSysdQuery P { sysc with FDName := some v } rest
      else if key = "idx" then
        match P.atoi v with
        | some idx => parseSysdQuery P { sysc with FDIndex := some idx } rest
        | none => (sysc, some (.sysdBadIdx val))
      else if key = "check_pid" then
        match P.parseBool v with
        | some b => parseSysdQuery P { sysc with CheckPID := b } rest
        | none => (sysc, some (.sysdBadCheckPid val))
      else if key = "unset_env" then
        match P.parseBool v with
        | some b => parseSysdQuery P { sysc with UnsetEnv := b } rest
        | none => (sysc, some (.sysdBadUnsetEnv val))
      else if key = "idle_timeout" then
        match P.parseDuration v with
        | some t => parseSysdQuery P { sysc with IdleTimeout := some t } rest
        | none => (sysc, some (.sysdBadIdleTimeout val))
      else (sysc, some (.sysdBadOption key val))

/-- `parseAddress` (anyhttp.go:658-751) from the parsed URL onward.  On the
`unix` path the loop runs from `DefaultUnixSocketConfig` and an empty
`SocketPath` afterwards is an error; on the `sysd` path the loop runs from
`DefaultSysdConfig` and `(FDIndex == nil) == (FDName == nil)` afterwards is
an error; any other path is treated as a TCP address.  Note Go's named
returns: on a query error the partially built config is still returned
alongside the error. -/
def parseAddress (P : Parsers) (path : String)
    (query : List (String × List String)) : ParseResult :=
  if path = "unix" then
    match parseUnixQuery P DefaultUnixSocketConfig query with
    | (usc, some e) => ⟨.UnixSocket, some usc, none, some e⟩
    | (usc, none) =>
      if usc.SocketPath = "" then ⟨.UnixSocket, some usc, none, some .unixMissingPath⟩
      else ⟨.UnixSocket, some usc, none, none⟩
  else if path = "sysd" then
    match parseSysdQuery P DefaultSysdConfig query with
    | (sysc, some e) => ⟨.SystemdFD, none, some sysc, some e⟩
    | (sysc, none) =>
      if sysc.FDIndex.isNone = sysc.FDName.isNone then
        ⟨.SystemdFD, none, some sysc, some (.sysdExactlyOne sysc.FDName sysc.FDIndex)⟩
      else ⟨.SystemdFD, none, some sysc, none⟩
  else ⟨.TCP, none, none, none⟩

/-- Whether a query map has an entry for `key`. -/
def hasKey (query : List (String × List String)) (key : String) : Bool :=
  query.any (fun e => e.1 = key)

/-- The (single) value of `key` in a query map, if present:
`val[0]` of the first entry for `key`. -/
def lookupVal (query : List (String × List String)) (key : String) : Option String :=
  (query.find? (fun e => e.1 = key)).map (fun e => e.2.headD "")

/-- A `unix` query entry the loop accepts: a single value under a
recognized key, whose value its parser accepts ("the individual query value
parses"). -/
def unixEntryOk (P : Parsers) (e : String × List String) : Prop :=
  e.2.length = 1 ∧
  (e.1 = "path" ∨
    (e.1 = "mode" ∧ (P.scanOctal (e.2.headD "")).isSome = true) ∨
    (e.1 = "remove_existing" ∧ (P.parseBool (e.2.headD "")).isSome = true))

instance (P : Parsers) (e : String × List String) : Decidable (unixEntryOk P e) := by
  unfold unixEntryOk
  infer_instance

/-- A `sysd` query entry the loop accepts. -/
def sysdEntryOk (P : Parsers) (e : String × List String) : Prop :=
  e.2.length = 1 ∧
  (e.1 = "name" ∨
    (e.1 = "idx" ∧ (P.atoi (e.2.headD "")).isSome = true) ∨
    (e.1 = "check_pid" ∧ (P.parseBool (e.2.headD "")).isSome = true) ∨
    (e.1 = "unset_env" ∧ (P.parseBool (e.2.headD "")).isSome = true) ∨
    (e.1 = "idle_timeout" ∧ (P.parseDuration (e.2.headD "")).isSome = true))

instance (P : Parsers) (e : String × List String) : Decidable (sysdEntryOk P e) := by
  unfold sysdEntryOk
  infer_instance

/-- The query keys the `unix` branch recognizes. -/
def unixKeys : List String := ["path", "mode", "remove_existing"]

/-- The query keys the `sysd` branch recognizes. -/
def sysdKeys : List String := ["name", "idx", "check_pid", "unset_env", "idle_timeout"]

/-! ## Server wiring (`serve`, anyhttp.go:753-803, and
`idle.WrapIdlerHandler`, idle/idle.go:48-56)

A handler is modelled by the trace of effects it performs on a request;
requests are opaque (`Nat`).  `serve`'s handler wiring is the slice of the
function between obtaining the listener and launching the goroutines: which
idler is created (if any) and which handler the `http.Server` is given. -/

/-- An idler object as `serve` sees it: created by `idle.CreateIdler` with
this timeout; `id` distinguishes instances. -/
structure IdlerObj where
  timeout : Int
  id : Nat
deriving Repr, DecidableEq

/-- `idle.CreateIdler(timeout)` returning a fresh idler object. -/
def CreateIdler (timeout : Int) (freshId : Nat) : IdlerObj :=
  ⟨timeout, freshId⟩

/-- One observable effect of handling a request. -/
inductive HAction
  /-- `i.Tick()` on this idler. -/
  | tick (i : IdlerObj)
  /-- the wrapped/original handler's own processing of the request. -/
  | userStep (n : Nat)
deriving Repr, DecidableEq

/-- A handler: the trace of effects it performs on a request. -/
def Handler : Type := Nat → List HAction

/-- `idle.WrapIdlerHandler(i, h)` (idle/idle.go:48-56): substitute
`http.DefaultServeMux` for a nil handler, then tick `i` before delegating
every request. -/
def WrapIdlerHandler (dsm : Handler) (i : IdlerObj) (h : Option Handler) : Handler :=
  fun r => HAction.tick i :: (h.getD dsm) r

/-- The handler/idler wiring of `serve` (anyhttp.go:781-797): when the
resolved address is a systemd descriptor whose config carries an
`IdleTimeout`, create an idler with that timeout and give the server
`WrapIdlerHandler(idler, h)`; otherwise give the server `h` unchanged and
create no idler.  Returns (the created idler if any, the server's
handler — `none` meaning the `http.Server` got the caller's nil handler). -/
def serveWiring (dsm : Handler) (addrType : AddressType)
    (sysc : Option SysdConfig) (h : Option Handler) (freshId : Nat) :
    Option IdlerObj × Option Handler :=
  match addrType, sysc with
  | .SystemdFD, some c =>
    match c.IdleTimeout with
    | some t =>
      let idler := CreateIdler t freshId
      (some idler, some (WrapIdlerHandler dsm idler h))
    | none => (none, h)
  | _, _ => (none, h)

/-! ## Helper lemmas -/

namespace Idle

theorem idlerRun_cons (s : IdlerSt) (op : IdlerOp) (ops : List IdlerOp) :
    idlerRun s (op :: ops) = idlerRun (idlerApply s op) ops := rfl

theorem idlerApply_fired_mono (s : IdlerSt) (op : IdlerOp) (h : s.fired = true) :
    (idlerApply s op).fired = true := by
  cases op <;> simp [idlerApply, h]

theorem idlerRun_fired_mono (ops : List IdlerOp) (s : IdlerSt) (h : s.fired = true) :
    (idlerRun s ops).fired = true := by
  induction ops generalizing s with
  | nil => exact h
  | cons op rest ih =>
    rw [idlerRun_cons]
    exact ih _ (idlerApply_fired_mono s op h)

theorem watcherStep_eq (timeout : Int) (o : Obs) :
    watcherStep timeout o =
      if o.active ≠ 0 then .sleepFull
      else if 0 ≤ o.lastTick + timeout - o.now then
        .sleepFor (o.lastTick + timeout - o.now)
      else .fire := by
  have habs : (o.lastTick + timeout - o.now
      = ((o.lastTick + timeout - o.now).natAbs : Int))
      ↔ 0 ≤ o.lastTick + timeout - o.now := by omega
  unfold watcherStep
  simp only [habs]

theorem watcherStep_sleepFull_iff (timeout : Int) (o : Obs) :
    watcherStep timeout o = .sleepFull ↔ o.active ≠ 0 := by
  rw [watcherStep_eq]
  split_ifs with h1 h2 <;> simp [h1]

theorem watcherStep_sleepFor_iff (timeout : Int) (o : Obs) (d : Int) :
    watcherStep timeout o = .sleepFor d ↔
      o.active = 0 ∧ d = o.lastTick + timeout - o.now ∧ 0 ≤ d := by
  rw [watcherStep_eq]
  split_ifs with h1 h2
  · simp [h1]
  · simp only [WatchAction.sleepFor.injEq]
    constructor
    · rintro rfl
      exact ⟨by omega, rfl, h2⟩
    · rintro ⟨-, rfl, -⟩
      rfl
  · simp only [show (WatchAction.fire = WatchAction.sleepFor d) ↔ False by simp,
      false_iff, not_and]
    rintro - rfl
    omega

theorem watcherStep_fire_iff (timeout : Int) (o : Obs) :
    watcherStep timeout o = .fire ↔
      o.active = 0 ∧ o.lastTick + timeout - o.now < 0 := by
  rw [watcherStep_eq]
  split_ifs with h1 h2
  · simp [h1]
  · simp only [show (WatchAction.sleepFor (o.lastTick + timeout - o.now)
        = WatchAction.fire) ↔ False by simp, false_iff, not_and]
    intro
    omega
  · simp only [true_iff]
    exact ⟨by omega, by omega⟩

theorem watcherRun_fire_count (timeout : Int) (obs : List Obs) :
    ((watcherRun timeout obs).1.count .fire) ≤ 1 := by
  induction obs with
  | nil => simp [watcherRun]
  | cons o rest ih =>
    unfold watcherRun
    cases h : watcherStep timeout o <;> simp [List.count_cons, ih]

theorem watcherRun_fired_iff (timeout : Int) (obs : List Obs) :
    (watcherRun timeout obs).2 = true ↔ .fire ∈ (watcherRun timeout obs).1 := by
  induction obs with
  | nil => simp [watcherRun]
  | cons o rest ih =>
    unfold watcherRun
    cases h : watcherStep timeout o <;> simp [ih]

end Idle

theorem findFdIdx_some (target : String) (names : List String) (i : Nat)
    (h : findFdIdx names target = some i) :
    names[i]? = some target ∧ ∀ j : Nat, j < i → names[j]? ≠ some target := by
  induction names generalizing i with
  | nil => cases h
  | cons n rest ih =>
    by_cases hn : n = target
    · rw [findFdIdx, if_pos hn] at h
      obtain rfl : i = 0 := by simpa using h.symm
      subst hn
      exact ⟨by simp, by omega⟩
    · rw [findFdIdx, if_neg hn] at h
      cases hrec : findFdIdx rest target with
      | none => rw [hrec] at h; cases h
      | some k =>
        rw [hrec] at h
        obtain rfl : i = k + 1 := by simpa using h.symm
        obtain ⟨h1, h2⟩ := ih k hrec
        refine ⟨by simpa using h1, ?_⟩
        intro j hj
        cases j with
        | zero => simpa using hn
        | succ j' =>
          have hj' : j' < k := by omega
          simpa using h2 j' hj'

theorem findFdIdx_none (target : String) (names : List String)
    (h : findFdIdx names target = none) : target ∉ names := by
  induction names with
  | nil => simp
  | cons n rest ih =>
    rw [findFdIdx] at h
    by_cases hn : n = target
    · rw [if_pos hn] at h; cases h
    · rw [if_neg hn] at h
      cases hrec : findFdIdx rest target with
      | none =>
        simp only [List.mem_cons, not_or]
        exact ⟨fun he => hn he.symm, ih hrec⟩
      | some k => rw [hrec] at h; cases h

theorem hasKey_nil (k : String) : hasKey [] k = false := rfl

theorem hasKey_cons (key : String) (val : List String)
    (rest : List (String × List String)) (k : String) :
    hasKey ((key, val) :: rest) k = (decide (key = k) || hasKey rest k) := by
  simp [hasKey]

theorem lookupVal_cons_self (key : String) (val : List String)
    (rest : List (String × List String)) :
    lookupVal ((key, val) :: rest) key = some (val.headD "") := by
  simp [lookupVal, List.find?]

theorem lookupVal_cons_ne (key : String) (val : List String)
    (rest : List (String × List String)) (k : String) (h : key ≠ k) :
    lookupVal ((key, val) :: rest) k = lookupVal rest k := by
  simp [lookupVal, List.find?, h]

theorem lookupVal_eq_none (q : List (String × List String)) (k : String)
    (h : k ∉ q.map Prod.fst) : lookupVal q k = none := by
  induction q with
  | nil => rfl
  | cons e rest ih =>
    obtain ⟨key, val⟩ := e
    simp only [List.map_cons, List.mem_cons, not_or] at h
    rw [lookupVal_cons_ne key val rest k (fun he => h.1 he.symm)]
    exact ih h.2

/-- A completed (error-free) run of the `unix` query loop accepted every
entry: single-valued and under a recognized key. -/
theorem parseUnixQuery_no_err (P : Parsers) (q : List (String × List String)) :
    ∀ c c' : UnixSocketConfig, parseUnixQuery P c q = (c', none) →
      ∀ e ∈ q, e.2.length = 1 ∧ e.1 ∈ unixKeys := by
  induction q with
  | nil =>
    intro c c' _ e he
    cases he
  | cons hd rest ih =>
    obtain ⟨key, val⟩ := hd
    intro c c' h e he
    by_cases hlen : val.length = 1
    · by_cases hp : key = "path"
      · rw [parseUnixQuery, if_neg (by omega), if_pos hp] at h
        rcases List.mem_cons.mp he with rfl | he
        · exact ⟨hlen, by simp [unixKeys, hp]⟩
        · exact ih _ _ h e he
      · by_cases hm : key = "mode"
        · rw [parseUnixQuery, if_neg (by omega), if_neg hp, if_pos hm] at h
          cases hoct : P.scanOctal (val.headD "") with
          | none => rw [hoct] at h; cases h
          | some m =>
            rw [hoct] at h
            rcases List.mem_cons.mp he with rfl | he
            · exact ⟨hlen, by simp [unixKeys, hm]⟩
            · exact ih _ _ h e he
        · by_cases hr : key = "remove_existing"
          · rw [parseUnixQuery, if_neg (by omega), if_neg hp, if_neg hm, if_pos hr] at h
            cases hb : P.parseBool (val.headD "") with
            | none => rw [hb] at h; cases h
            | some b =>
              rw [hb] at h
              rcases List.mem_cons.mp he with rfl | he
              · exact ⟨hlen, by simp [unixKeys, hr]⟩
              · exact ih _ _ h e he
          · rw [parseUnixQuery, if_neg (by omega), if_neg hp, if_neg hm, if_neg hr] at h
            cases h
    · rw [parseUnixQuery, if_pos (by omega)] at h
      cases h

/-- A completed (error-free) run of the `sysd` query loop accepted every
entry: single-valued and under a recognized key. -/
theorem parseSysdQuery_no_err (P : Parsers) (q : List (String × List String)) :
    ∀ c c' : SysdConfig, parseSysdQuery P c q = (c', none) →
      ∀ e ∈ q, e.2.length = 1 ∧ e.1 ∈ sysdKeys := by
  induction q with
  | nil =>
    intro c c' _ e he
    cases he
  | cons hd rest ih =>
    obtain ⟨key, val⟩ := hd
    intro c c' h e he
    by_cases hlen : val.length = 1
    · by_cases h1 : key = "name"
      · rw [parseSysdQuery, if_neg (by omega), if_pos h1] at h
        rcases List.mem_cons.mp he with rfl | he
        · exact ⟨hlen, by simp [sysdKeys, h1]⟩
        · exact ih _ _ h e he
      · by_cases h2 : key = "idx"
        · rw [parseSysdQuery, if_neg (by omega), if_neg h1, if_pos h2] at h
          cases hv : P.atoi (val.headD "") with
          | none => rw [hv] at h; cases h
          | some n =>
            rw [hv] at h
            rcases List.mem_cons.mp he with rfl | he
            · exact ⟨hlen, by simp [sysdKeys, h2]⟩
            · exact ih _ _ h e he
        · by_cases h3 : key = "check_pid"
          · rw [parseSysdQuery, if_neg (by omega), if_neg h1, if_neg h2, if_pos h3] at h
            cases hv : P.parseBool (val.headD "") with
            | none => rw [hv] at h; cases h
            | some b =>
              rw [hv] at h
              rcases List.mem_cons.mp he with rfl | he
              · exact ⟨hlen, by simp [sysdKeys, h3]⟩
              · exact ih _ _ h e he
          · by_cases h4 : key = "unset_env"
            · rw [parseSysdQuery, if_neg (by omega), if_neg h1, if_neg h2, if_neg h3,
                if_pos h4] at h
              cases hv : P.parseBool (val.headD "") with
              | none => rw [hv] at h; cases h
              | some b =>
                rw [hv] at h
                rcases List.mem_cons.mp he with rfl | he
                · exact ⟨hlen, by simp [sysdKeys, h4]⟩
                · exact ih _ _ h e he
            · by_cases h5 : key = "idle_timeout"
              · rw [parseSysdQuery, if_neg (by omega), if_neg h1, if_neg h2, if_neg h3,
                  if_neg h4, if_pos h5] at h
                cases hv : P.parseDuration (val.headD "") with
                | none => rw [hv] at h; cases h
                | some t =>
                  rw [hv] at h
                  rcases List.mem_cons.mp he with rfl | he
                  · exact ⟨hlen, by simp [sysdKeys, h5]⟩
                  · exact ih _ _ h e he
              · rw [parseSysdQuery, if_neg (by omega), if_neg h1, if_neg h2, if_neg h3,
                  if_neg h4, if_neg h5] at h
                cases h
    · rw [parseSysdQuery, if_pos (by omega)] at h
      cases h

/-- On a query whose entries are all acceptable, the `sysd` loop completes
without error, and the final config has `FDIndex`/`FDName` set exactly when
they started set or the corresponding key occurs. -/
theorem parseSysdQuery_ok (P : Parsers) (q : List (String × List String))
    (hok : ∀ e ∈ q, sysdEntryOk P e) :
    ∀ c : SysdConfig, ∃ c' : SysdConfig,
      parseSysdQuery P c q = (c', none)
      ∧ c'.FDIndex.isSome = (c.FDIndex.isSome || hasKey q "idx")
      ∧ c'.FDName.isSome = (c.FDName.isSome || hasKey q "name") := by
  induction q with
  | nil =>
    intro c
    exact ⟨c, rfl, by simp [hasKey_nil], by simp [hasKey_nil]⟩
  | cons hd rest ih =>
    obtain ⟨key, val⟩ := hd
    intro c
    obtain ⟨hlen, hkey⟩ := hok (key, val) (List.mem_cons_self _ _)
    have hlen1 : val.length = 1 := hlen
    have hkey1 : key = "name" ∨ (key = "idx" ∧ (P.atoi (val.headD "")).isSome = true)
        ∨ (key = "check_pid" ∧ (P.parseBool (val.headD "")).isSome = true)
        ∨ (key = "unset_env" ∧ (P.parseBool (val.headD "")).isSome = true)
        ∨ (key = "idle_timeout" ∧ (P.parseDuration (val.headD "")).isSome = true) := hkey
    have hrest : ∀ e ∈ rest, sysdEntryOk P e :=
      fun e hm => hok e (List.mem_cons_of_mem _ hm)
    rcases hkey1 with h1 | ⟨h2, hp⟩ | ⟨h3, hp⟩ | ⟨h4, hp⟩ | ⟨h5, hp⟩
    · subst h1
      obtain ⟨c', hc', hi, hn⟩ := ih hrest { c with FDName := some (val.headD "") }
      refine ⟨c', ?_, ?_, ?_⟩
      · rw [parseSysdQuery, if_neg (by omega), if_pos rfl]
        exact hc'
      · rw [hi, hasKey_cons, show (decide ("name" = "idx")) = false from rfl]
        simp
      · rw [hn, hasKey_cons, show (decide ("name" = "name")) = true from rfl]
        simp
    · subst h2
      obtain ⟨n, hv⟩ := Option.isSome_iff_exists.mp hp
      obtain ⟨c', hc', hi, hn⟩ := ih hrest { c with FDIndex := some n }
      refine ⟨c', ?_, ?_, ?_⟩
      · rw [parseSysdQuery, if_neg (by omega), if_neg (show ¬("idx" = "name") by decide),
          if_pos rfl]
        simp only [hv]
        exact hc'
      · rw [hi, hasKey_cons, show (decide ("idx" = "idx")) = true from rfl]
        simp
      · rw [hn, hasKey_cons, show (decide ("idx" = "name")) = false from rfl]
        simp
    · subst h3
      obtain ⟨b, hv⟩ := Option.isSome_iff_exists.mp hp
      obtain ⟨c', hc', hi, hn⟩ := ih hrest { c with CheckPID := b }
      refine ⟨c', ?_, ?_, ?_⟩
      · rw [parseSysdQuery, if_neg (by omega), if_neg (show ¬("check_pid" = "name") by decide),
          if_neg (show ¬("check_pid" = "idx") by decide), if_pos rfl, hv]
        exact hc'
      · rw [hi, hasKey_cons, show (decide ("check_pid" = "idx")) = false from rfl]
        simp
      · rw [hn, hasKey_cons, show (decide ("check_pid" = "name")) = false from rfl]
        simp
    · subst h4
      obtain ⟨b, hv⟩ := Option.isSome_iff_exists.mp hp
      obtain ⟨c', hc', hi, hn⟩ := ih hrest { c with UnsetEnv := b }
      refine ⟨c', ?_, ?_, ?_⟩
      · rw [parseSysdQuery, if_neg (by omega), if_neg (show ¬("unset_env" = "name") by decide),
          if_neg (show ¬("unset_env" = "idx") by decide),
          if_neg (show ¬("unset_env" = "check_pid") by decide), if_pos rfl, hv]
        exact hc'
      · rw [hi, hasKey_cons, show (decide ("unset_env" = "idx")) = false from rfl]
        simp
      · rw [hn, hasKey_cons, show (decide ("unset_env" = "name")) = false from rfl]
        simp
    · subst h5
      obtain ⟨t, hv⟩ := Option.isSome_iff_exists.mp hp
      obtain ⟨c', hc', hi, hn⟩ := ih hrest { c with IdleTimeout := some t }
      refine ⟨c', ?_, ?_, ?_⟩
      · rw [parseSysdQuery, if_neg (by omega), if_neg (show ¬("idle_timeout" = "name") by decide),
          if_neg (show ¬("idle_timeout" = "idx") by decide),
          if_neg (show ¬("idle_timeout" = "check_pid") by decide),
          if_neg (show ¬("idle_timeout" = "unset_env") by decide), if_pos rfl]
        simp only [hv]
        exact hc'
      · rw [hi, hasKey_cons, show (decide ("idle_timeout" = "idx")) = false from rfl]
        simp
      · rw [hn, hasKey_cons, show (decide ("idle_timeout" = "name")) = false from rfl]
        simp

/-- On a query with pairwise-distinct keys (the shape `url.Values` delivers)
whose entries are all acceptable, the `unix` loop completes without error
and produces exactly: each recognized key's parsed value where present, the
starting config's field where absent. -/
theorem parseUnixQuery_ok (P : Parsers) (q : List (String × List String))
    (hok : ∀ e ∈ q, unixEntryOk P e) (hnd : (q.map Prod.fst).Nodup) :
    ∀ c : UnixSocketConfig,
      parseUnixQuery P c q =
        (⟨(lookupVal q "path").getD c.SocketPath,
          ((lookupVal q "mode").bind P.scanOctal).getD c.SocketMode,
          ((lookupVal q "remove_existing").bind P.parseBool).getD c.RemoveExisting⟩,
         none) := by
  induction q with
  | nil =>
    intro c
    rfl
  | cons hd rest ih =>
    obtain ⟨key, val⟩ := hd
    intro c
    obtain ⟨hlen, hkey⟩ := hok (key, val) (List.mem_cons_self _ _)
    have hlen1 : val.length = 1 := hlen
    have hkey1 : key = "path" ∨ (key = "mode" ∧ (P.scanOctal (val.headD "")).isSome = true)
        ∨ (key = "remove_existing" ∧ (P.parseBool (val.headD "")).isSome = true) := hkey
    have hrest : ∀ e ∈ rest, unixEntryOk P e :=
      fun e hm => hok e (List.mem_cons_of_mem _ hm)
    simp only [List.map_cons, List.nodup_cons] at hnd
    obtain ⟨hkeynot, hnd'⟩ := hnd
    rcases hkey1 with h1 | ⟨h2, hp⟩ | ⟨h3, hp⟩
    · subst h1
      rw [parseUnixQuery, if_neg (by omega), if_pos rfl,
        ih hrest hnd' { c with SocketPath := val.headD "" },
        lookupVal_eq_none rest "path" (by simpa using hkeynot)]
      rw [lookupVal_cons_self,
        lookupVal_cons_ne "path" val rest "mode" (by decide),
        lookupVal_cons_ne "path" val rest "remove_existing" (by decide)]
      rfl
    · subst h2
      obtain ⟨m, hv⟩ := Option.isSome_iff_exists.mp hp
      rw [parseUnixQuery, if_neg (by omega), if_neg (show ¬("mode" = "path") by decide),
        if_pos rfl]
      simp only [hv]
      rw [ih hrest hnd' { c with SocketMode := m },
        lookupVal_eq_none rest "mode" (by simpa using hkeynot)]
      rw [lookupVal_cons_self,
        lookupVal_cons_ne "mode" val rest "path" (by decide),
        lookupVal_cons_ne "mode" val rest "remove_existing" (by decide)]
      have hbind : (some (val.headD "")).bind P.scanOctal = some m := hv
      rw [hbind]
      rfl
    · subst h3
      obtain ⟨b, hv⟩ := Option.isSome_iff_exists.mp hp
      rw [parseUnixQuery, if_neg (by omega),
        if_neg (show ¬("remove_existing" = "path") by decide),
        if_neg (show ¬("remove_existing" = "mode") by decide),
        if_pos rfl]
      simp only [hv]
      rw [ih hrest hnd' { c with RemoveExisting := b },
        lookupVal_eq_none rest "remove_existing" (by simpa using hkeynot)]
      rw [lookupVal_cons_self,
        lookupVal_cons_ne "remove_existing" val rest "path" (by decide),
        lookupVal_cons_ne "remove_existing" val rest "mode" (by decide)]
      have hbind : (some (val.headD "")).bind P.parseBool = some b := hv
      rw [hbind]
      rfl

/-! ## Claim theorems -/

/-- **C1** (code bug).  On a `UnixSocketConfig` where deletion and binding
succeed but `os.Chmod` fails (here with a non-`ErrNotExist` OS error), the
code returns the error and no listener object — but it never calls `Close`
on the listener `net.Listen` just created, so the bound Unix-domain socket
is still open when the call returns (the `true` in the result): the
partially created listener is *not* released on this failure path. -/
theorem unixGetListener_chmod_leaves_socket_open :
    UnixSocketConfig.GetListener ⟨"/run/app.sock", 0o666, true⟩
        ⟨none, none, some (.other 13)⟩ =
      (.error (.other 13), true) := by decide

namespace Idle

/-- **C2** (counterexample).  With no active jobs, timeout 5, last activity
at 0 and the clock at 5, the remaining window `lastActivity + timeout - now`
is exactly 0; the claim says the watcher then breaks and fires, but the
code's iteration instead sleeps 0 and re-checks (`dur == dur.Abs()` holds at
`dur = 0`): it does not fire. -/
theorem watcherStep_zero_remaining_cex :
    (Obs.mk 0 0 5).active = 0 ∧
    (Obs.mk 0 0 5).lastTick + 5 - (Obs.mk 0 0 5).now ≤ 0 ∧
    watcherStep 5 ⟨0, 0, 5⟩ = .sleepFor 0 ∧
    watcherStep 5 ⟨0, 0, 5⟩ ≠ .fire := by decide

/-- **C2** (amended).  The watcher loop of `CreateIdler(timeout)`: an
iteration sleeps the full timeout iff the active-job counter is nonzero
(never computing an idle deadline then); otherwise it computes
`remaining = lastActivity + timeout - now` and sleeps exactly `remaining`
iff `remaining` is **non-negative** (including zero), re-checking from fresh
state; it breaks iff the counter is 0 and `remaining` is **strictly
negative**, and then fires the one-shot signal exactly once (at most one
`fire` per run, fired iff a `fire` action happened); once the signal has
fired it stays observable forever: no later operation of the package resets
it, so every later `Wait`/`Chan` read returns immediately. -/
theorem watcher_loop_behavior (timeout : Int) (o : Obs) (obs : List Obs)
    (s : IdlerSt) (ops more : List IdlerOp) :
    (watcherStep timeout o = .sleepFull ↔ o.active ≠ 0)
    ∧ (∀ d : Int, watcherStep timeout o = .sleepFor d ↔
        o.active = 0 ∧ d = o.lastTick + timeout - o.now ∧ 0 ≤ d)
    ∧ (watcherStep timeout o = .fire ↔
        o.active = 0 ∧ o.lastTick + timeout - o.now < 0)
    ∧ (watcherRun timeout obs).1.count .fire ≤ 1
    ∧ ((watcherRun timeout obs).2 = true ↔ .fire ∈ (watcherRun timeout obs).1)
    ∧ ((idlerRun s ops).fired = true → (idlerRun (idlerRun s ops) more).fired = true) :=
  ⟨watcherStep_sleepFull_iff timeout o,
   fun d => watcherStep_sleepFor_iff timeout o d,
   watcherStep_fire_iff timeout o,
   watcherRun_fire_count timeout obs,
   watcherRun_fired_iff timeout obs,
   fun h => idlerRun_fired_mono more _ h⟩

/-- **C3** (counterexample).  With an idler (id 0) already installed in the
`gIdler` slot, a global `Wait` call (creating idler 1) fails — but with the
error message `"idler already waiting"`, not the claimed
`"idler already active"`; and it has still constructed a second idler
(id 1, whose watcher goroutine `CreateIdler` launched) before losing the
compare-and-swap. -/
theorem globalWait_error_message_cex :
    (Wait (some 0) 1).err = some "idler already waiting" ∧
    (Wait (some 0) 1).err ≠ some "idler already active" ∧
    (Wait (some 0) 1).created = 1 := by decide

/-- **C3** (amended).  The global `idle.Wait(timeout)` installs its freshly
created idler as the process-wide idler only if none is currently installed
(one atomic compare-and-swap on the slot): from an empty slot it succeeds
and installs; when one is already installed it fails with the
`"idler already waiting"` error and leaves the installed idler in place
(though it has already created — and abandons — a second idler); of two
concurrent calls, whichever compare-and-swap linearizes first succeeds and
the other fails: exactly one succeeds. -/
theorem globalWait_check_and_set (a b : Nat) (j : Nat) :
    ((Wait none a).err = none ∧ (Wait none a).slot = some a)
    ∧ ((Wait (some j) b).err = some "idler already waiting"
        ∧ (Wait (some j) b).slot = some j ∧ (Wait (some j) b).created = b)
    ∧ ((Wait none a).err = none ∧ (Wait (Wait none a).slot b).err.isSome = true) := by
  refine ⟨⟨rfl, rfl⟩, ⟨rfl, rfl, rfl⟩, ⟨rfl, rfl⟩⟩

/-- **C10**.  The `gIdler` slot is never cleared: the only write to it in
the package is the global `Wait`'s `CompareAndSwap(nil, i)`, so once an
idler is installed, after *any* sequence of the package's operations on the
slot (more `Wait` attempts, `Tick` loads — including everything that happens
after the first idler fires and its `Wait` returns) the slot still holds an
idler and a further global `Wait` call returns the
`"idler already waiting"` error. -/
theorem gIdler_never_cleared (i : Nat) (ops : List GlobalOp) (j : Nat) :
    (globalRun (some i) ops).isSome = true ∧
    (Wait (globalRun (some i) ops) j).err = some "idler already waiting" := by
  have hsome : ∀ (s : Option Nat), s.isSome = true →
      ∀ (ops' : List GlobalOp), (globalRun s ops').isSome = true := by
    intro s hs ops'
    induction ops' generalizing s with
    | nil => exact hs
    | cons op rest ih =>
      have hstep : (globalApply s op).isSome = true := by
        cases op with
        | wait k =>
          cases s with
          | none => rfl
          | some m => rfl
        | tick => exact hs
      exact ih _ hstep
  have h1 : (globalRun (some i) ops).isSome = true := hsome (some i) rfl ops
  refine ⟨h1, ?_⟩
  cases hval : globalRun (some i) ops with
  | none => rw [hval] at h1; cases h1
  | some m => rfl

end Idle

/-- **C8**.  `SysdConfig.GetListener` and the process environment: with
`UnsetEnv` true the three `LISTEN_*` variables are cleared on *every* exit
path — whatever the (possibly failed) cached environment-parse result, the
PID check's outcome and the descriptor resolution — because the unset runs
as a deferred action registered before any of those steps; with `UnsetEnv`
false the environment is left untouched. -/
theorem sysdGetListener_env_effect (s : SysdConfig) (curPid : Int)
    (parseResult : Except Err SysdEnvData) (flOk : Int → String → Bool)
    (env : Env) :
    (s.UnsetEnv = true →
      (s.GetListener curPid parseResult flOk env).2 = ⟨none, none, none⟩)
    ∧ (s.UnsetEnv = false →
      (s.GetListener curPid parseResult flOk env).2 = env) := by
  constructor <;>
    · intro h
      unfold SysdConfig.GetListener
      repeat' split
      all_goals simp_all [UnsetSystemdListenVars]

/-- **C4**.  `SysdConfig.GetListener` descriptor resolution, on a config
whose PID check passes (and a successfully parsed environment).  With
`FDIndex = some idx`: a range error unless `0 ≤ idx < numFds`, otherwise
the wrap (`makeFdListener`) of OS descriptor `StartFD + idx = 3 + idx`,
named `fdNames[idx]` when `idx` is within the name list and the synthesized
placeholder `"sysdfd_<fd>"` otherwise.  With `FDIndex` unset (the
configuration invariant when `FDName` is set) and `FDName = some target`:
the linear scan `findFdIdx` yields the *first* exact match — index `i`
holds `target` and no earlier index does — and the result wraps descriptor
`3 + i`; with no match the result is the `fdNameNotFound` error carrying
the requested name and the raw `LISTEN_FDNAMES` string. -/
theorem sysdGetListener_fd_resolution (s : SysdConfig) (curPid : Int)
    (envData : SysdEnvData) (flOk : Int → String → Bool) (env : Env)
    (hpid : s.CheckPID = true → envData.pid = curPid) :
    (∀ idx : Int, s.FDIndex = some idx →
      (¬ (0 ≤ idx ∧ idx < envData.numFds) →
        (s.GetListener curPid (.ok envData) flOk env).1
          = .error (.invalidFdIndex envData.numFds idx))
      ∧ ((0 ≤ idx ∧ idx < envData.numFds) →
        (s.GetListener curPid (.ok envData) flOk env).1
          = makeFdListener flOk (StartFD + idx)
              (if idx < (envData.fdNames.length : Int)
               then envData.fdNames.getD idx.toNat ""
               else "sysdfd_" ++ toString (StartFD + idx))))
    ∧ (s.FDIndex = none → ∀ target : String, s.FDName = some target →
        (∀ i : Nat, findFdIdx envData.fdNames target = some i →
          envData.fdNames[i]? = some target
          ∧ (∀ j : Nat, j < i → envData.fdNames[j]? ≠ some target)
          ∧ (s.GetListener curPid (.ok envData) flOk env).1
              = makeFdListener flOk (StartFD + (i : Int)) target)
        ∧ (findFdIdx envData.fdNames target = none →
            target ∉ envData.fdNames
            ∧ (s.GetListener curPid (.ok envData) flOk env).1
                = .error (.fdNameNotFound target envData.fdNamesStr))) := by
  have hcheck : ¬ (s.CheckPID = true ∧ envData.pid ≠ curPid) := by
    rintro ⟨hc, hne⟩
    exact hne (hpid hc)
  constructor
  · rintro idx hidx
    constructor
    · intro hout
      have hrange : idx < 0 ∨ idx ≥ envData.numFds := by omega
      simp only [SysdConfig.GetListener, if_neg hcheck, hidx, if_pos hrange]
    · rintro ⟨h0, hlt⟩
      have hrange : ¬ (idx < 0 ∨ idx ≥ envData.numFds) := by omega
      simp only [SysdConfig.GetListener, if_neg hcheck, hidx, if_neg hrange]
      split_ifs with hname <;> rfl
  · intro hnone target htarget
    constructor
    · intro i hfind
      obtain ⟨h1, h2⟩ := findFdIdx_some target envData.fdNames i hfind
      refine ⟨h1, h2, ?_⟩
      simp only [SysdConfig.GetListener, if_neg hcheck, hnone, htarget, hfind]
    · intro hfind
      refine ⟨findFdIdx_none target envData.fdNames hfind, ?_⟩
      simp only [SysdConfig.GetListener, if_neg hcheck, hnone, htarget, hfind]

/-- Witness for C4 at a concrete input: environment
`LISTEN_PID=42, LISTEN_FDS=2, LISTEN_FDNAMES=a:b` (as parsed), config
`FDIndex = 1`: the result wraps descriptor `4` with name `"b"`. -/
theorem sysdGetListener_fd_resolution_witness :
    (SysdConfig.GetListener ⟨some 1, none, true, true, none⟩ 42
        (.ok ⟨42, ["a", "b"], "a:b", 2⟩) (fun _ _ => true)
        ⟨some "42", some "2", some "a:b"⟩).1 = .ok ⟨4, "b", true⟩ := by
  have h := ((sysdGetListener_fd_resolution ⟨some 1, none, true, true, none⟩ 42
      ⟨42, ["a", "b"], "a:b", 2⟩ (fun _ _ => true)
      ⟨some "42", some "2", some "a:b"⟩ (fun _ => rfl)).1 1 rfl).2
      (by constructor <;> decide)
  rw [h]
  decide

/-- **C7**.  Under both the `unix` and the `sysd` path, resolution always
fails when some query key carries two or more values (a repeated key in the
address string) and always fails when some unrecognized key is present:
every entry of the query map must be single-valued and recognized, or the
loop aborts with an error. -/
theorem parseAddress_bad_query_fails (P : Parsers)
    (query : List (String × List String)) :
    (((∃ e ∈ query, 2 ≤ e.2.length) ∨ (∃ e ∈ query, e.1 ∉ unixKeys)) →
      (parseAddress P "unix" query).err.isSome = true)
    ∧ (((∃ e ∈ query, 2 ≤ e.2.length) ∨ (∃ e ∈ query, e.1 ∉ sysdKeys)) →
      (parseAddress P "sysd" query).err.isSome = true) := by
  constructor
  · intro hbad
    cases hq : parseUnixQuery P DefaultUnixSocketConfig query with
    | mk c' oe =>
      cases oe with
      | some e =>
        rw [parseAddress, if_pos rfl, hq]
        rfl
      | none =>
        exfalso
        have hall := parseUnixQuery_no_err P query _ _ hq
        rcases hbad with ⟨e, he, hlen⟩ | ⟨e, he, hkey⟩
        · have h1 := (hall e he).1
          omega
        · exact hkey (hall e he).2
  · intro hbad
    cases hq : parseSysdQuery P DefaultSysdConfig query with
    | mk c' oe =>
      cases oe with
      | some e =>
        rw [parseAddress, if_neg (show ¬("sysd" = "unix") by decide), if_pos rfl, hq]
        rfl
      | none =>
        exfalso
        have hall := parseSysdQuery_no_err P query _ _ hq
        rcases hbad with ⟨e, he, hlen⟩ | ⟨e, he, hkey⟩
        · have h1 := (hall e he).1
          omega
        · exact hkey (hall e he).2

/-- **C5**.  For a `sysd` query whose entries are individually acceptable
(each key recognized, single-valued, its value parsing under that key's
parser), resolution fails iff the keys `idx` and `name` are both present or
both absent, and on success the resulting `SysdConfig` has exactly one of
`FDIndex`/`FDName` set. -/
theorem parseAddress_sysd_exactly_one (P : Parsers)
    (query : List (String × List String))
    (hok : ∀ e ∈ query, sysdEntryOk P e) :
    ((parseAddress P "sysd" query).err.isSome = true
      ↔ hasKey query "idx" = hasKey query "name")
    ∧ ((parseAddress P "sysd" query).err = none →
        ∃ c : SysdConfig, (parseAddress P "sysd" query).sysc = some c
          ∧ ¬ (c.FDIndex.isSome = c.FDName.isSome)) := by
  obtain ⟨c', hc', hi, hn⟩ := parseSysdQuery_ok P query hok DefaultSysdConfig
  have hi' : c'.FDIndex.isSome = hasKey query "idx" := by
    simpa [DefaultSysdConfig] using hi
  have hn' : c'.FDName.isSome = hasKey query "name" := by
    simpa [DefaultSysdConfig] using hn
  have hpa : parseAddress P "sysd" query =
      (if c'.FDIndex.isNone = c'.FDName.isNone then
        ⟨.SystemdFD, none, some c', some (.sysdExactlyOne c'.FDName c'.FDIndex)⟩
      else ⟨.SystemdFD, none, some c', none⟩) := by
    rw [parseAddress, if_neg (show ¬("sysd" = "unix") by decide), if_pos rfl, hc']
  constructor
  · rcases hI : c'.FDIndex with _ | vI <;> rcases hN : c'.FDName with _ | vN <;>
      rw [hI] at hi' <;> rw [hN] at hn' <;> simp [hpa, hI, hN, ← hi', ← hn']
  · intro hnone
    refine ⟨c', ?_, ?_⟩
    · rw [hpa]
      split_ifs <;> rfl
    · rw [hpa] at hnone
      by_cases hcond : c'.FDIndex.isNone = c'.FDName.isNone
      · rw [if_pos hcond] at hnone
        simp at hnone
      · intro hiso
        apply hcond
        have hrel : ∀ {α : Type} (o : Option α), o.isNone = !o.isSome := by
          intro α o
          cases o <;> rfl
        rw [hrel c'.FDIndex, hrel c'.FDName, hiso]

/-- Witness for C5 at a concrete input: `sysd?idx=0` (one recognized,
single-valued, parsing entry; `idx` present, `name` absent) — the iff
instance holds there. -/
theorem parseAddress_sysd_exactly_one_witness :
    ((parseAddress ⟨fun s => if s = "0" then some 0 else none, fun _ => none,
        fun _ => none, fun _ => none⟩ "sysd" [("idx", ["0"])]).err.isSome = true
      ↔ hasKey [("idx", ["0"])] "idx" = hasKey [("idx", ["0"])] "name") :=
  (parseAddress_sysd_exactly_one _ _ (by decide)).1

/-- **C6**.  For a `unix` query with pairwise-distinct keys whose entries
are individually acceptable, resolution yields the `UnixSocketConfig` with
`SocketPath` the `path` value, `SocketMode` the octal parse of the `mode`
value, `RemoveExisting` the boolean parse of the `remove_existing` value —
defaulting to `""`, `0666` and `true` for omitted keys — and it fails
exactly when `SocketPath` is empty after parsing all keys. -/
theorem parseAddress_unix_config (P : Parsers)
    (query : List (String × List String))
    (hok : ∀ e ∈ query, unixEntryOk P e)
    (hnd : (query.map Prod.fst).Nodup) :
    (parseAddress P "unix" query).addrType = .UnixSocket
    ∧ (parseAddress P "unix" query).usc
        = some ⟨(lookupVal query "path").getD "",
                ((lookupVal query "mode").bind P.scanOctal).getD 0o666,
                ((lookupVal query "remove_existing").bind P.parseBool).getD true⟩
    ∧ ((parseAddress P "unix" query).err.isSome = true
        ↔ (lookupVal query "path").getD "" = "") := by
  have hq := parseUnixQuery_ok P query hok hnd DefaultUnixSocketConfig
  have hpa : parseAddress P "unix" query =
      (if (lookupVal query "path").getD "" = "" then
        ⟨.UnixSocket,
         some ⟨(lookupVal query "path").getD "",
               ((lookupVal query "mode").bind P.scanOctal).getD 0o666,
               ((lookupVal query "remove_existing").bind P.parseBool).getD true⟩,
         none, some .unixMissingPath⟩
      else
        ⟨.UnixSocket,
         some ⟨(lookupVal query "path").getD "",
               ((lookupVal query "mode").bind P.scanOctal).getD 0o666,
               ((lookupVal query "remove_existing").bind P.parseBool).getD true⟩,
         none, none⟩) := by
    rw [parseAddress, if_pos rfl, hq]
    rfl
  refine ⟨?_, ?_, ?_⟩
  · rw [hpa]
    split_ifs <;> rfl
  · rw [hpa]
    split_ifs <;> rfl
  · rw [hpa]
    split_ifs with hp <;> simp [hp]

/-- Witness for C6 at a concrete input:
`unix?path=/tmp/t.sock&mode=600&remove_existing=false` resolves to the
matching `UnixSocketConfig`. -/
theorem parseAddress_unix_config_witness :
    (parseAddress ⟨fun _ => none, fun s => if s = "false" then some false else none,
        fun _ => none, fun s => if s = "600" then some 0o600 else none⟩ "unix"
        [("path", ["/tmp/t.sock"]), ("mode", ["600"]), ("remove_existing", ["false"])]).usc
      = some ⟨"/tmp/t.sock", 0o600, false⟩ := by
  have h := (parseAddress_unix_config ⟨fun _ => none,
      fun s => if s = "false" then some false else none,
      fun _ => none, fun s => if s = "600" then some 0o600 else none⟩
      [("path", ["/tmp/t.sock"]), ("mode", ["600"]), ("remove_existing", ["false"])]
      (by decide) (by decide)).2.1
  rw [h]
  decide

/-- **C9**.  The handler/idler wiring of `serve`: when the resolved address
is a systemd descriptor whose config carries an idle timeout, `serve`
creates an idle coordinator with exactly that timeout and hands the server
`WrapIdlerHandler` of the supplied handler, which on every request first
ticks that coordinator and then delegates to the original handler
unmodified; for every other address type, and for a systemd config without
an idle timeout, the server gets the supplied handler unchanged and no
idler is created. -/
theorem serve_idle_wiring (dsm : Handler) (addrType : AddressType)
    (sysc : Option SysdConfig) (c : SysdConfig) (t : Int)
    (h : Option Handler) (h0 : Handler) (freshId : Nat) (r : Nat) :
    (sysc = some c → c.IdleTimeout = some t →
      serveWiring dsm .SystemdFD sysc h freshId
        = (some (CreateIdler t freshId),
           some (WrapIdlerHandler dsm (CreateIdler t freshId) h))
      ∧ (h = some h0 →
          WrapIdlerHandler dsm (CreateIdler t freshId) h r
            = HAction.tick (CreateIdler t freshId) :: h0 r))
    ∧ (addrType ≠ .SystemdFD → serveWiring dsm addrType sysc h freshId = (none, h))
    ∧ (sysc = some c → c.IdleTimeout = none →
        serveWiring dsm addrType sysc h freshId = (none, h)) := by
  refine ⟨?_, ?_, ?_⟩
  · rintro rfl hT
    constructor
    · simp [serveWiring, hT]
    · rintro rfl
      rfl
  · intro hne
    cases addrType with
    | SystemdFD => exact absurd rfl hne
    | UnixSocket => cases sysc <;> rfl
    | TCP => cases sysc <;> rfl
    | Unknown => cases sysc <;> rfl
  · rintro rfl hT
    cases addrType with
    | SystemdFD => simp [serveWiring, hT]
    | UnixSocket => rfl
    | TCP => rfl
    | Unknown => rfl

end Anyhttp
